/-
Verification of the currencyx-js rate-resolution engine.

Shallow embedding of the TypeScript sources:
  - src/exchanges/base_exchange.ts   (result constructors, round, setBase)
  - src/exchanges/google_finance.ts  (convert, latestRates, parseRateFromHtml)
  - src/providers/fixer.ts           (convert, latestRates, getConvertRate)
  - services/currency_service.ts     (registry, use, convert, getExchangeRates)

Modelling conventions:
  - JavaScript numbers are modelled as rationals (ℚ); NaN never arises in the
    fragments embedded here except through parseFloat, which is modelled as a
    partial function (Option ℚ).
  - JavaScript string-keyed records are insertion-ordered association lists;
    assignment `r[k] = v` is `recordSet` (update in place or append).
  - Network I/O is an explicit oracle parameter; each embedded operation also
    returns the list of upstream calls it made, so "no upstream fetch" is the
    statement that this list is empty.
  - `Date.now()` is an explicit `now : Nat` parameter; the ISO `date` string is
    a second rendering of the same clock value and is not modelled separately.
  - JavaScript truthiness of a number-or-undefined is `jsTruthy`: undefined and
    0 are falsy (NaN does not arise for the values tested for truthiness here).
-/
import Mathlib

set_option autoImplicit false

namespace CurrencyX

/-- Error object carried by result envelopes: `{ code?, info, type? }`. -/
structure CurrencyError where
  code : Option Int
  info : String
  type : Option String
  deriving Repr, DecidableEq

/-- Parameters of `convert`: `{ amount, from, to }` (types/index.ts). -/
structure ConvertParams where
  amount : ℚ
  from_ : String
  to_ : String
  deriving Repr, DecidableEq

/-- Parameters of `latestRates` / `getExchangeRates`: `{ base?, symbols? }`. -/
structure ExchangeRatesParams where
  base : Option String
  symbols : Option (List String)
  deriving Repr, DecidableEq

/-- Result of a conversion (types/index.ts `ConversionResult`); `rate` is the
field `info.rate`, `timestamp` the field `info.timestamp`. -/
structure ConversionResult where
  success : Bool
  queryFrom : String
  queryTo : String
  queryAmount : ℚ
  timestamp : Nat
  rate : Option ℚ
  result : Option ℚ
  error : Option CurrencyError
  deriving Repr, DecidableEq

/-- Result of a rates request (types/index.ts `ExchangeRatesResult`). -/
structure ExchangeRatesResult where
  success : Bool
  timestamp : Nat
  base : String
  rates : List (String × ℚ)
  error : Option CurrencyError
  deriving Repr, DecidableEq

/-- JavaScript object assignment `r[k] = v` on a string-keyed record: update
the existing binding in place, otherwise append a new one. -/
def recordSet (r : List (String × ℚ)) (k : String) (v : ℚ) : List (String × ℚ) :=
  if r.any (fun p => p.1 = k) then
    r.map (fun p => if p.1 = k then (k, v) else p)
  else
    r ++ [(k, v)]

/-- Truthiness of a JavaScript `number | undefined` value: `undefined` and `0`
are falsy. -/
def jsTruthy : Option ℚ → Bool
  | none => false
  | some q => q != 0

/-- Embedding of `BaseCurrencyExchange.createConversionResult` (and the
identical `BaseCurrencyProvider` copy):
`success: !error && result !== undefined`. -/
def createConversionResult (now : Nat) (amount : ℚ) (from_ to_ : String)
    (result : Option ℚ) (rate : Option ℚ) (error : Option CurrencyError) :
    ConversionResult :=
  { success := error.isNone && result.isSome
    queryFrom := from_
    queryTo := to_
    queryAmount := amount
    timestamp := now
    rate := rate
    result := result
    error := error }

/-- Embedding of `BaseCurrencyExchange.createExchangeRatesResult`:
`success: !error && Object.keys(rates).length > 0`. -/
def createExchangeRatesResult (now : Nat) (base : String)
    (rates : List (String × ℚ)) (error : Option CurrencyError) :
    ExchangeRatesResult :=
  { success := error.isNone && !rates.isEmpty
    timestamp := now
    base := base
    rates := rates
    error := error }

/-- `Math.round`: round half toward positive infinity, i.e. `⌊x + 1/2⌋`. -/
def jsRound (x : ℚ) : Int := ⌊x + 1 / 2⌋

/-- Embedding of `BaseCurrencyExchange.round(value, precision?)`: with an
explicit precision, `Math.round(value * 10^p) / 10^p`; with the argument
omitted, the dedicated default branch `Math.round(value * 100) / 100`. -/
def round (value : ℚ) (precision : Option ℤ) : ℚ :=
  match precision with
  | some p => (jsRound (value * 10 ^ p) : ℚ) / 10 ^ p
  | none => (jsRound (value * 100) : ℚ) / 100

/-! ## GoogleFinanceExchange (src/exchanges/google_finance.ts)

The private `getRate(from, to)` method performs the fetch and HTML parse and
catches every failure, returning `undefined`; it is modelled as an oracle
`getRate : String → String → Option ℚ`.  Each operation returns, next to its
result, the list of `(from, to)` pairs it asked the oracle for. -/

/-- Embedding of `GoogleFinanceExchange.convert`.  `if (!rate)` is a JavaScript
truthiness test, so a zero rate also takes the RATE_NOT_FOUND branch. -/
def googleConvert (getRate : String → String → Option ℚ) (now : Nat)
    (p : ConvertParams) : ConversionResult × List (String × String) :=
  if p.from_ = p.to_ then
    (createConversionResult now p.amount p.from_ p.to_ (some p.amount) (some 1) none, [])
  else
    let rate := getRate p.from_ p.to_
    if jsTruthy rate then
      (createConversionResult now p.amount p.from_ p.to_
        ((rate.getD 0) * p.amount |> some) rate none, [(p.from_, p.to_)])
    else
      (createConversionResult now p.amount p.from_ p.to_ none none
        (some { code := none
                info := "Failed to get exchange rate for " ++ p.from_ ++ "-" ++ p.to_
                type := some "RATE_NOT_FOUND" }), [(p.from_, p.to_)])

/-- Body of the `for (const code of currenciesToFetch)` loop of
`GoogleFinanceExchange.latestRates`, with the rates record and call log as
accumulators. -/
def googleRatesLoop (getRate : String → String → Option ℚ) (base : String) :
    List String → List (String × ℚ) → List (String × String) →
    List (String × ℚ) × List (String × String)
  | [], acc, calls => (acc, calls)
  | code :: rest, acc, calls =>
    if code = base then
      googleRatesLoop getRate base rest (recordSet acc code 1) calls
    else
      let rate := getRate base code
      let acc := if jsTruthy rate then recordSet acc code (rate.getD 0) else acc
      googleRatesLoop getRate base rest acc (calls ++ [(base, code)])

/-- Embedding of `GoogleFinanceExchange.latestRates`.  `currencies` is the
exchange's full supported list, the default when `params.symbols` is absent
(`params?.symbols || this.currencies`; an empty array is truthy and kept).
The surrounding try/catch is dead in the model because the oracle already
absorbs every failure of `getRate`. -/
def googleLatestRates (getRate : String → String → Option ℚ) (now : Nat)
    (base : String) (currencies : List String) (symbols : Option (List String)) :
    ExchangeRatesResult × List (String × String) :=
  let currenciesToFetch := symbols.getD currencies
  let (rates, calls) := googleRatesLoop getRate base currenciesToFetch [] []
  (createExchangeRatesResult now base rates none, calls)

/-! ## FixerProvider (src/providers/fixer.ts)

The `/latest` endpoint fetch can end three ways: the fetch or JSON decoding
throws, the decoded body has `success: false` (with an optional error object),
or it has `success: true` with a rates record.  The oracle maps the requested
symbols (exactly the `symbols` value that `latestRates` was called with, which
is what determines the upstream URL) to one of these outcomes. -/

/-- Outcome of one fetch of the Fixer `/latest` endpoint. -/
inductive FixerFetchOutcome where
  | throw (msg : String)
  | apiError (code : Option Int) (info : Option String) (type : Option String)
  | ok (rates : Option (List (String × ℚ)))
  deriving Repr, DecidableEq

/-- Embedding of `FixerProvider.latestRates`.  Returns the envelope and the
call log (one upstream call per invocation, recorded by its symbols value). -/
def fixerLatestRates (upstream : Option (List String) → FixerFetchOutcome)
    (now : Nat) (base : String) (symbols : Option (List String)) :
    ExchangeRatesResult × List (Option (List String)) :=
  let outcome := upstream symbols
  let res :=
    match outcome with
    | .throw msg =>
      createExchangeRatesResult now base []
        (some { code := none, info := msg, type := some "FETCH_ERROR" })
    | .apiError code info type =>
      createExchangeRatesResult now base []
        (some { code := code
                info := info.getD "Unknown error from Fixer.io"
                type := some (type.getD "API_ERROR") })
    | .ok rates => createExchangeRatesResult now base (rates.getD []) none
  (res, [symbols])

/-- Embedding of `FixerProvider.getConvertRate`.  The rate values read out of
the returned envelope are tested with JavaScript truthiness
(`rate ? 1 / rate : undefined` and `if (fromRate && toRate)`), so a zero rate
counts as absent.  The try/catch is dead in the model: `latestRates` catches
internally and record lookups cannot throw. -/
def fixerGetConvertRate (upstream : Option (List String) → FixerFetchOutcome)
    (now : Nat) (base : String) (from_ to_ : String) :
    Option ℚ × List (Option (List String)) :=
  if from_ = to_ then
    (some 1, [])
  else if from_ = base then
    let (res, calls) := fixerLatestRates upstream now base (some [to_])
    (res.rates.lookup to_, calls)
  else if to_ = base then
    let (res, calls) := fixerLatestRates upstream now base (some [from_])
    let rate := res.rates.lookup from_
    ((if jsTruthy rate then some (1 / rate.getD 0) else none), calls)
  else
    let (res, calls) := fixerLatestRates upstream now base (some [from_, to_])
    let fromRate := res.rates.lookup from_
    let toRate := res.rates.lookup to_
    ((if jsTruthy fromRate && jsTruthy toRate then
        some (toRate.getD 0 / fromRate.getD 0)
      else none), calls)

/-- Outcome of one fetch of the Fixer `/convert` endpoint. -/
inductive FixerConvertOutcome where
  | throw (msg : String)
  | apiError (code : Option Int) (info : Option String) (type : Option String)
  | ok (result : Option ℚ) (rate : Option ℚ)
  deriving Repr, DecidableEq

/-- Embedding of `FixerProvider.convert`.  The oracle maps the query
`(from, to, amount)` sent in the URL to the upstream outcome; the call log
records the queries issued. -/
def fixerConvert (upstream : String → String → ℚ → FixerConvertOutcome)
    (now : Nat) (p : ConvertParams) :
    ConversionResult × List (String × String × ℚ) :=
  if p.from_ = p.to_ then
    (createConversionResult now p.amount p.from_ p.to_ (some p.amount) (some 1) none, [])
  else
    let res :=
      match upstream p.from_ p.to_ p.amount with
      | .throw msg =>
        createConversionResult now p.amount p.from_ p.to_ none none
          (some { code := none, info := msg, type := some "CONVERSION_ERROR" })
      | .apiError code info type =>
        createConversionResult now p.amount p.from_ p.to_ none none
          (some { code := code
                  info := info.getD "Unknown error from Fixer.io"
                  type := some (type.getD "API_ERROR") })
      | .ok result rate => createConversionResult now p.amount p.from_ p.to_ result rate none
    (res, [(p.from_, p.to_, p.amount)])

/-! ## Regex engine for `GoogleFinanceExchange.parseRateFromHtml`

The four candidate patterns use only these constructs: literal characters
(case-insensitive, `i` flag), character classes, greedy `*`, greedy `?`, and
numbered capture groups.  `matchRx` is a backtracking matcher in
continuation-passing style with JavaScript semantics: greedy quantifiers try
the longer alternative first, a quantifier iteration must consume input
(JavaScript stops quantifier loops on an empty iteration), and the capture map
of the successful branch is the one reported.  The fuel bounds quantifier
unfoldings; since every quantified body of the four patterns consumes at least
one character on success, `length + 1` fuel is exact. -/

/-- Regular expressions as used by the four Google Finance patterns. -/
inductive Rx where
  | eps
  | ch (p : Char → Bool)
  | seq (a b : Rx)
  | star (a : Rx)
  | opt (a : Rx)
  | group (idx : Nat) (a : Rx)

/-- Capture map: group index to captured substring.  A group that did not
participate in the match is absent (JavaScript `undefined`). -/
abbrev Caps := List (Nat × String)

/-- Record the capture of group `i` (later iterations overwrite earlier ones). -/
def capsSet (caps : Caps) (i : Nat) (v : String) : Caps :=
  caps.filter (fun p => p.1 ≠ i) ++ [(i, v)]

/-- Node count of a pattern, used to size the matcher fuel. -/
def rxSize : Rx → Nat
  | .eps => 1
  | .ch _ => 1
  | .seq a b => rxSize a + rxSize b + 1
  | .star a => rxSize a + 1
  | .opt a => rxSize a + 1
  | .group _ a => rxSize a + 1

/-- Backtracking matcher: `matchRx fuel r s caps k` matches `r` against a
prefix of `s`, extending captures `caps`, and calls `k` on the remainder;
alternatives are tried in JavaScript preference order and the first overall
success wins.  The fuel is consumed once per pattern node entered along a
single alternative; between two input characters a single alternative can
enter each syntactic node at most once (a `star` node is re-entered only
after consuming input), so `(length + 2) * (rxSize + 2)` fuel — what
`execFrom` supplies — is never exhausted and the zero case is dead code. -/
def matchRx : Nat → Rx → List Char → Caps → (List Char → Caps → Option Caps) →
    Option Caps
  | 0, _, _, _, _ => none
  | fuel + 1, r, s, caps, k =>
    match r with
    | .eps => k s caps
    | .ch p =>
      (match s with
       | [] => none
       | c :: rest => if p c then k rest caps else none)
    | .seq a b => matchRx fuel a s caps (fun s1 c1 => matchRx fuel b s1 c1 k)
    | .star a =>
      (match matchRx fuel a s caps (fun s1 c1 =>
          if s1.length < s.length then matchRx fuel (.star a) s1 c1 k
          else none) with
       | some res => some res
       | none => k s caps)
    | .opt a =>
      (match matchRx fuel a s caps k with
       | some res => some res
       | none => k s caps)
    | .group i a =>
      matchRx fuel a s caps (fun s1 c1 =>
        k s1 (capsSet c1 i (String.mk (s.take (s.length - s1.length)))))

/-- Try a full-engine match at each successive start position, as
`String.prototype.match` does for a non-global non-anchored regex. -/
def execFrom (r : Rx) : List Char → Option Caps
  | [] => matchRx (2 * (rxSize r + 2)) r [] [] (fun _ caps => some caps)
  | c :: rest =>
    match matchRx (((c :: rest).length + 2) * (rxSize r + 2)) r (c :: rest) []
        (fun _ caps => some caps) with
    | some caps => some caps
    | none => execFrom r rest

/-- Embedding of `html.match(pattern)`, reduced to its capture map. -/
def jsMatch (r : Rx) (s : String) : Option Caps :=
  execFrom r s.toList

/-- Class `\s` of JavaScript regexes (the full ECMAScript WhiteSpace and
LineTerminator set). -/
def wsChar (c : Char) : Bool :=
  c = ' ' || c = '\t' || c = '\n' || c = '\r' || c.toNat = 11 || c.toNat = 12 ||
  c.toNat = 160 || c.toNat = 5760 || (8192 ≤ c.toNat && c.toNat ≤ 8202) ||
  c.toNat = 8232 || c.toNat = 8233 || c.toNat = 8239 || c.toNat = 8287 ||
  c.toNat = 12288 || c.toNat = 65279

/-- Case-insensitive literal character (the patterns carry the `i` flag; the
literals involved are ASCII, where simple case folding is `toLower`). -/
def chci (c : Char) : Rx :=
  .ch (fun d => d.toLower = c.toLower)

/-- Case-insensitive literal string. -/
def strci (s : String) : Rx :=
  s.toList.foldr (fun c r => .seq (chci c) r) .eps

/-- One-or-more, desugaring `x+` to `x x*`. -/
def plusRx (a : Rx) : Rx :=
  .seq a (.star a)

/-- The numeric capture `([0-9,]+\.?[0-9]*)` with capture index `idx`. -/
def numberGroup (idx : Nat) : Rx :=
  .group idx (.seq (plusRx (.ch (fun c => c.isDigit || c = ',')))
    (.seq (.opt (chci '.')) (.star (.ch Char.isDigit))))

/-- First candidate pattern:
`data-source="F"[^>]*data-target="T"[^>]*>([^<]*<[^>]*>)*([0-9,]+\.?[0-9]*)`;
the numeric capture is group 2. -/
def googlePattern1 (from_ to_ : String) : Rx :=
  .seq (strci ("data-source=\"" ++ from_ ++ "\""))
    (.seq (.star (.ch (fun c => c ≠ '>')))
      (.seq (strci ("data-target=\"" ++ to_ ++ "\""))
        (.seq (.star (.ch (fun c => c ≠ '>')))
          (.seq (chci '>')
            (.seq (.star (.group 1 (.seq (.star (.ch (fun c => c ≠ '<')))
                (.seq (chci '<')
                  (.seq (.star (.ch (fun c => c ≠ '>'))) (chci '>'))))))
              (numberGroup 2))))))

/-- Second candidate pattern: `F\s*-\s*T[^0-9]*([0-9,]+\.?[0-9]*)`; its only
capture group, the numeric one, is group 1. -/
def googlePattern2 (from_ to_ : String) : Rx :=
  .seq (strci from_)
    (.seq (.star (.ch wsChar))
      (.seq (chci '-')
        (.seq (.star (.ch wsChar))
          (.seq (strci to_)
            (.seq (.star (.ch (fun c => !c.isDigit))) (numberGroup 1))))))

/-- Third candidate pattern:
`"F-T"[^}]*"price"[^:]*:[^"]*"([0-9,]+\.?[0-9]*)"`; its only capture group,
the numeric one, is group 1. -/
def googlePattern3 (from_ to_ : String) : Rx :=
  .seq (strci ("\"" ++ from_ ++ "-" ++ to_ ++ "\""))
    (.seq (.star (.ch (fun c => c ≠ Char.ofNat 125)))
      (.seq (strci "\"price\"")
        (.seq (.star (.ch (fun c => c ≠ ':')))
          (.seq (chci ':')
            (.seq (.star (.ch (fun c => c ≠ '\"')))
              (.seq (chci '\"')
                (.seq (numberGroup 1) (chci '\"'))))))))

/-- Fourth candidate pattern: `F/T[^0-9]*([0-9,]+\.?[0-9]*)`; its only capture
group, the numeric one, is group 1. -/
def googlePattern4 (from_ to_ : String) : Rx :=
  .seq (strci (from_ ++ "/" ++ to_))
    (.seq (.star (.ch (fun c => !c.isDigit))) (numberGroup 1))

/-- The four candidate patterns of `parseRateFromHtml`, in source order, each
paired with the index of its numeric capture group (2 for the first pattern,
1 for the other three, which have a single capture group). -/
def googlePatterns (from_ to_ : String) : List (Rx × Nat) :=
  [(googlePattern1 from_ to_, 2), (googlePattern2 from_ to_, 1),
    (googlePattern3 from_ to_, 1), (googlePattern4 from_ to_, 1)]

/-- Embedding of `rateString.replace(/,/g, "")`. -/
def stripCommas (s : String) : String :=
  String.mk (s.toList.filter (fun c => c ≠ ','))

/-- Digit run to its numeric value. -/
def digitsVal (cs : List Char) : Nat :=
  cs.foldl (fun n c => 10 * n + (c.toNat - 48)) 0

/-- Embedding of `parseFloat` on the strings producible here (after comma
stripping a capture is made of digits and at most one dot, so the sign,
exponent and Infinity forms of full `parseFloat` cannot occur): parse the
longest numeric prefix, `none` for NaN (no leading digits). -/
def parseFloatQ (s : String) : Option ℚ :=
  let cs := s.toList
  let intPart := cs.takeWhile Char.isDigit
  let rest := cs.dropWhile Char.isDigit
  match rest with
  | [] => if intPart.isEmpty then none else some (digitsVal intPart)
  | c :: frac =>
    if c = '.' then
      let fracDigits := frac.takeWhile Char.isDigit
      if intPart.isEmpty && fracDigits.isEmpty then none
      else some ((digitsVal intPart : ℚ) + (digitsVal fracDigits : ℚ) / 10 ^ fracDigits.length)
    else if intPart.isEmpty then none else some (digitsVal intPart)

/-- Body of the `for (const pattern of patterns)` loop of `parseRateFromHtml`:
the match array is always indexed at 2 (`match && match[2]`; an empty capture
is falsy), regardless of which group of the pattern holds the number. -/
def parseRateLoop (html : String) : List (Rx × Nat) → Option ℚ
  | [] => none
  | (r, _) :: rest =>
    match jsMatch r html with
    | none => parseRateLoop html rest
    | some caps =>
      match caps.lookup 2 with
      | none => parseRateLoop html rest
      | some v =>
        if v = "" then parseRateLoop html rest
        else
          match parseFloatQ (stripCommas v) with
          | none => parseRateLoop html rest
          | some rate => if rate > 0 then some rate else parseRateLoop html rest

/-- Embedding of `GoogleFinanceExchange.parseRateFromHtml`. -/
def parseRateFromHtml (html from_ to_ : String) : Option ℚ :=
  parseRateLoop html (googlePatterns from_ to_)

/-- Modelled from the spec: the extraction the specification describes, where
the first pattern that matches and whose captured numeric value parses to a
positive number wins — i.e. each pattern is read at its own numeric capture
group instead of a fixed index 2. -/
def parseRateLoopSpec (html : String) : List (Rx × Nat) → Option ℚ
  | [] => none
  | (r, idx) :: rest =>
    match jsMatch r html with
    | none => parseRateLoopSpec html rest
    | some caps =>
      match caps.lookup idx with
      | none => parseRateLoopSpec html rest
      | some v =>
        if v = "" then parseRateLoopSpec html rest
        else
          match parseFloatQ (stripCommas v) with
          | none => parseRateLoopSpec html rest
          | some rate => if rate > 0 then some rate else parseRateLoopSpec html rest

/-- Modelled from the spec: extraction reading each pattern at its numeric
capture group, as §4.3 Strategy B step 2 of the specification describes. -/
def parseRateFromHtmlSpec (html from_ to_ : String) : Option ℚ :=
  parseRateLoopSpec html (googlePatterns from_ to_)

/-! ## CurrencyService (services/currency_service.ts)

An exchange instance is a mutable object whose `base` field the service can
update through `setBase`; its behaviour methods read `this.base`, so they are
modelled as functions of the current base.  The service owns the registry, so
the JavaScript aliasing of the mutated instance is modelled by writing the
updated instance back into the registry map. -/

/-- State and behaviour of one exchange instance behind
`CurrencyExchangeContract`. -/
structure ExchangeState where
  base : String
  convertFn : String → ConvertParams → ConversionResult
  latestFn : String → ExchangeRatesParams → ExchangeRatesResult
  getConvertRateFn : String → String → String → Option ℚ

/-- Embedding of `BaseCurrencyExchange.setBase` (it assigns `this.base` and
returns `this`). -/
def setBase (e : ExchangeState) (currency : String) : ExchangeState :=
  { e with base := currency }

/-- One entry of the `exchanges` configuration object: a ready instance or a
zero-argument factory function. -/
inductive ExchangeEntry where
  | inst (e : ExchangeState)
  | factory (f : Unit → ExchangeState)

/-- Configuration passed to the service constructor:
`{ default: <name>, exchanges: { <name>: <instance-or-factory> } }`. -/
structure CurrencyConfig where
  default : String
  exchanges : List (String × ExchangeEntry)

/-- Errors thrown synchronously by the service (§7: configuration errors are
thrown, not put in envelopes). -/
inductive ServiceError where
  | notConfigured (name : String)
  | noneSelected
  | notAvailable (name : String)
  deriving Repr, DecidableEq

/-- Registry plus active-exchange pointer (`#exchanges`, `#currentExchange`). -/
structure CurrencyService where
  exchanges : List (String × ExchangeState)
  currentExchange : Option String

/-- `Map.set` on the registry: replace the binding if the key exists, append
otherwise. -/
def mapSet (m : List (String × ExchangeState)) (k : String) (v : ExchangeState) :
    List (String × ExchangeState) :=
  if m.any (fun p => p.1 = k) then
    m.map (fun p => if p.1 = k then (k, v) else p)
  else
    m ++ [(k, v)]

/-- Resolution of one configuration entry, as `#initializeExchanges` performs
it: a factory is invoked right away, an instance is kept. -/
def resolveEntry : ExchangeEntry → ExchangeState
  | .inst e => e
  | .factory f => f ()

/-- Embedding of `#initializeExchanges`: each configured entry is resolved
eagerly and stored in the registry map. -/
def initializeExchanges (entries : List (String × ExchangeEntry)) :
    List (String × ExchangeState) :=
  entries.foldl (fun m p => mapSet m p.1 (resolveEntry p.2)) []

/-- Embedding of the `CurrencyService` constructor: populate the registry,
then set `#currentExchange = String(config.default)` — without checking that
the default names a registry entry. -/
def mkCurrencyService (config : CurrencyConfig) : CurrencyService :=
  { exchanges := initializeExchanges config.exchanges
    currentExchange := some config.default }

/-- Embedding of `CurrencyService.use`: throw if the name is not registered,
otherwise move the active pointer and return the instance. -/
def CurrencyService.use (s : CurrencyService) (exchange : String) :
    Except ServiceError (CurrencyService × ExchangeState) :=
  match s.exchanges.lookup exchange with
  | none => .error (.notConfigured exchange)
  | some ex => .ok ({ s with currentExchange := some exchange }, ex)

/-- Embedding of `#getActiveExchange`. -/
def CurrencyService.getActiveExchange (s : CurrencyService) :
    Except ServiceError ExchangeState :=
  match s.currentExchange with
  | none => .error .noneSelected
  | some n =>
    match s.exchanges.lookup n with
    | none => .error (.notAvailable n)
    | some ex => .ok ex

/-- Embedding of `CurrencyService.convert`: resolve the active exchange and
delegate. -/
def CurrencyService.convert (s : CurrencyService) (p : ConvertParams) :
    Except ServiceError ConversionResult :=
  match s.getActiveExchange with
  | .error e => .error e
  | .ok ex => .ok (ex.convertFn ex.base p)

/-- Embedding of `CurrencyService.getExchangeRates`: resolve the active
exchange, call `setBase` when `params.base` is truthy (the empty string is
falsy in JavaScript), then delegate to `latestRates`.  The mutated instance
stays in the registry, hence the write-back, and the service state after the
call is returned alongside the result. -/
def CurrencyService.getExchangeRates (s : CurrencyService)
    (params : ExchangeRatesParams) :
    Except ServiceError (ExchangeRatesResult × CurrencyService) :=
  match s.currentExchange with
  | none => .error .noneSelected
  | some n =>
    match s.exchanges.lookup n with
    | none => .error (.notAvailable n)
    | some ex =>
      let ex1 := match params.base with
        | some b => if b = "" then ex else setBase ex b
        | none => ex
      .ok (ex1.latestFn ex1.base params,
        { s with exchanges := mapSet s.exchanges n ex1 })

/-! ## Claims -/

/-- Claim C3: every result built by the shared constructors satisfies the
envelope invariants — a `ConversionResult` built by `createConversionResult`
has `success = true` iff no error was supplied and the result is defined, and
an `ExchangeRatesResult` built by `createExchangeRatesResult` has
`success = true` iff no error was supplied and the rates mapping is
non-empty. -/
theorem createResult_success_invariants (now : Nat) (amount : ℚ)
    (from_ to_ base : String) (result rate : Option ℚ)
    (rates : List (String × ℚ)) (error : Option CurrencyError) :
    ((createConversionResult now amount from_ to_ result rate error).success = true ↔
      error = none ∧ result ≠ none)
    ∧ ((createExchangeRatesResult now base rates error).success = true ↔
      error = none ∧ rates ≠ []) := by
  constructor
  · simp [createConversionResult, Option.isNone_iff_eq_none, Option.isSome_iff_ne_none]
  · cases rates <;>
      simp [createExchangeRatesResult, Option.isNone_iff_eq_none]

/-- Claim C8: the shared `round` satisfies
`round x (some p) = jsRound (x * 10^p) / 10^p`, the omitted precision defaults
to 2, the function is deterministic (it is one shared pure function on the
base exchange, inherited by every variant), and on the three sample inputs it
returns 123.46, 123 and 123.46. -/
theorem round_formula_and_examples :
    (∀ (value : ℚ) (p : ℤ),
      round value (some p) = (jsRound (value * 10 ^ p) : ℚ) / 10 ^ p)
    ∧ (∀ value : ℚ, round value none = round value (some 2))
    ∧ round (123456 / 1000) (some 2) = 12346 / 100
    ∧ round (123456 / 1000) (some 0) = 123
    ∧ round (123456 / 1000) none = 12346 / 100 := by
  refine ⟨fun value p => rfl, fun value => ?_, ?_, ?_, ?_⟩
  · show (jsRound (value * 100) : ℚ) / 100 = (jsRound (value * 10 ^ (2 : ℤ)) : ℚ) / 10 ^ (2 : ℤ)
    norm_num
  · norm_num [round, jsRound]
  · norm_num [round, jsRound]
  · norm_num [round, jsRound]

/-- Claim C1: for every amount and currency code `c`, `convert` with
`from = to = c` on either exchange returns a successful envelope with
`result = amount` and `rate = 1`, and the upstream call log is empty. -/
theorem convert_same_currency_short_circuit
    (getRate : String → String → Option ℚ)
    (upstream : String → String → ℚ → FixerConvertOutcome)
    (now : Nat) (amount : ℚ) (c : String) :
    (googleConvert getRate now ⟨amount, c, c⟩).1.success = true
    ∧ (googleConvert getRate now ⟨amount, c, c⟩).1.result = some amount
    ∧ (googleConvert getRate now ⟨amount, c, c⟩).1.rate = some 1
    ∧ (googleConvert getRate now ⟨amount, c, c⟩).2 = []
    ∧ (fixerConvert upstream now ⟨amount, c, c⟩).1.success = true
    ∧ (fixerConvert upstream now ⟨amount, c, c⟩).1.result = some amount
    ∧ (fixerConvert upstream now ⟨amount, c, c⟩).1.rate = some 1
    ∧ (fixerConvert upstream now ⟨amount, c, c⟩).2 = [] := by
  simp [googleConvert, fixerConvert, createConversionResult]

/-- Helper for C10: if every remaining symbol differs from the base and its
fetch returns `undefined`, the loop leaves the rates accumulator unchanged and
appends one call per symbol. -/
theorem googleRatesLoop_all_fail (getRate : String → String → Option ℚ)
    (base : String) (symbols : List String) (acc : List (String × ℚ))
    (calls : List (String × String))
    (h : ∀ c ∈ symbols, c ≠ base ∧ getRate base c = none) :
    googleRatesLoop getRate base symbols acc calls =
      (acc, calls ++ symbols.map (fun c => (base, c))) := by
  induction symbols generalizing calls with
  | nil => simp [googleRatesLoop]
  | cons c rest ih =>
    obtain ⟨hne, hnone⟩ := h c (List.mem_cons_self c rest)
    rw [googleRatesLoop, if_neg hne, hnone]
    show googleRatesLoop getRate base rest acc (calls ++ [(base, c)]) = _
    rw [ih (calls ++ [(base, c)]) (fun c hc => h c (List.mem_cons_of_mem _ hc))]
    simp

/-- Claim C10: when every requested symbol differs from the base and every
per-pair fetch fails, `GoogleFinanceExchange.latestRates` returns an envelope
with `success = false`, empty rates and an *undefined* `error` field (one call
was still made per symbol). -/
theorem googleLatestRates_all_fail_no_error
    (getRate : String → String → Option ℚ) (now : Nat) (base : String)
    (currencies : List String) (symbols : List String)
    (h : ∀ c ∈ symbols, c ≠ base ∧ getRate base c = none) :
    googleLatestRates getRate now base currencies (some symbols) =
      ({ success := false, timestamp := now, base := base, rates := [], error := none },
        symbols.map (fun c => (base, c))) := by
  rw [googleLatestRates]
  simp only [Option.getD_some, googleRatesLoop_all_fail getRate base symbols [] [] h]
  rfl

/-- Witness for C10 at a concrete input: base USD, symbols EUR and GBP, an
oracle that always fails. -/
theorem googleLatestRates_all_fail_no_error_witness :
    (∀ c ∈ ["EUR", "GBP"], c ≠ "USD" ∧ (fun (_ _ : String) => (none : Option ℚ)) "USD" c = none)
    ∧ googleLatestRates (fun _ _ => none) 7 "USD" [] (some ["EUR", "GBP"]) =
      ({ success := false, timestamp := 7, base := "USD", rates := [], error := none },
        [("USD", "EUR"), ("USD", "GBP")]) := by
  refine ⟨by decide, ?_⟩
  rw [googleLatestRates_all_fail_no_error (fun _ _ => none) 7 "USD" [] ["EUR", "GBP"] (by decide)]
  rfl

/-- The entry a symbol contributes to the rates record of
`GoogleFinanceExchange.latestRates`: the base maps to 1 without a fetch, a
truthy fetched rate is kept, a failed or zero fetch contributes nothing. -/
def googleRateEntry (getRate : String → String → Option ℚ) (base : String)
    (c : String) : Option (String × ℚ) :=
  if c = base then some (c, 1)
  else
    match getRate base c with
    | some r => if r = 0 then none else some (c, r)
    | none => none

/-- Appending a fresh key to a record is `recordSet`. -/
theorem recordSet_fresh (r : List (String × ℚ)) (k : String) (v : ℚ)
    (h : ∀ p ∈ r, p.1 ≠ k) : recordSet r k v = r ++ [(k, v)] := by
  rw [recordSet, if_neg]
  simp only [List.any_eq_true, not_exists, not_and]
  intro p hp
  simpa using h p hp

/-- Helper for C5: closed form of the rates loop when the remaining symbols
are distinct and fresh with respect to the accumulator. -/
theorem googleRatesLoop_spec (getRate : String → String → Option ℚ)
    (base : String) (symbols : List String) (acc : List (String × ℚ))
    (calls : List (String × String)) (hnd : symbols.Nodup)
    (hacc : ∀ c ∈ symbols, ∀ p ∈ acc, p.1 ≠ c) :
    googleRatesLoop getRate base symbols acc calls =
      (acc ++ symbols.filterMap (googleRateEntry getRate base),
        calls ++ (symbols.filter (fun c => c ≠ base)).map (fun c => (base, c))) := by
  induction symbols generalizing acc calls with
  | nil => simp [googleRatesLoop]
  | cons c rest ih =>
    have hcacc : ∀ p ∈ acc, p.1 ≠ c := hacc c (List.mem_cons_self c rest)
    have hrestnd : rest.Nodup := (List.nodup_cons.mp hnd).2
    have hcnotrest : c ∉ rest := (List.nodup_cons.mp hnd).1
    have hrestacc : ∀ c1 ∈ rest, ∀ p ∈ acc, p.1 ≠ c1 :=
      fun c1 hc1 p hp => hacc c1 (List.mem_cons_of_mem _ hc1) p hp
    have hfresh : ∀ (v : ℚ), ∀ c1 ∈ rest, ∀ p ∈ acc ++ [(c, v)], p.1 ≠ c1 := by
      intro v c1 hc1 p hp
      rcases List.mem_append.mp hp with hpacc | hpnew
      · exact hacc c1 (List.mem_cons_of_mem _ hc1) p hpacc
      · simp only [List.mem_singleton] at hpnew
        subst hpnew
        intro hcc
        apply hcnotrest
        rwa [show c = c1 from hcc]
    by_cases hcb : c = base
    · rw [googleRatesLoop, if_pos hcb, recordSet_fresh acc c 1 hcacc,
        ih _ _ hrestnd (hfresh 1)]
      subst hcb
      simp [googleRateEntry]
    · rw [googleRatesLoop, if_neg hcb]
      rcases hr : getRate base c with _ | r
      · show googleRatesLoop getRate base rest acc (calls ++ [(base, c)]) = _
        rw [ih _ _ hrestnd hrestacc]
        simp [googleRateEntry, hcb, hr]
      · by_cases hr0 : r = 0
        · subst hr0
          show googleRatesLoop getRate base rest acc (calls ++ [(base, c)]) = _
          rw [ih _ _ hrestnd hrestacc]
          simp [googleRateEntry, hcb, hr]
        · have htr : jsTruthy (some r) = true := by
            simp [jsTruthy, hr0]
          show googleRatesLoop getRate base rest
              (if jsTruthy (some r) then recordSet acc c ((some r).getD 0) else acc)
              (calls ++ [(base, c)]) = _
          rw [htr, if_pos rfl, Option.getD_some, recordSet_fresh acc c r hcacc,
            ih _ _ hrestnd (hfresh r)]
          simp [googleRateEntry, hcb, hr, hr0]

/-- Claim C5: `GoogleFinanceExchange.latestRates` over distinct requested
symbols fetches each non-base symbol individually against the current base
(one oracle call per such symbol, none for the base), maps the base symbol to
rate 1, omits each symbol whose fetch fails without aborting the batch, never
sets an error, and reports success whenever at least one rate was obtained. -/
theorem googleLatestRates_per_symbol (getRate : String → String → Option ℚ)
    (now : Nat) (base : String) (currencies : List String)
    (symbols : List String) (hnd : symbols.Nodup) :
    (googleLatestRates getRate now base currencies (some symbols)).2 =
      (symbols.filter (fun c => c ≠ base)).map (fun c => (base, c))
    ∧ (googleLatestRates getRate now base currencies (some symbols)).1.rates =
      symbols.filterMap (googleRateEntry getRate base)
    ∧ (googleLatestRates getRate now base currencies (some symbols)).1.error = none
    ∧ ((∃ c ∈ symbols, c = base ∨ jsTruthy (getRate base c) = true) →
      (googleLatestRates getRate now base currencies (some symbols)).1.success = true) := by
  have hloop := googleRatesLoop_spec getRate base symbols [] [] hnd
    (fun c _ p hp => absurd hp (List.not_mem_nil p))
  have hmain : googleLatestRates getRate now base currencies (some symbols) =
      (createExchangeRatesResult now base
        (symbols.filterMap (googleRateEntry getRate base)) none,
        (symbols.filter (fun c => c ≠ base)).map (fun c => (base, c))) := by
    rw [googleLatestRates]
    simp only [Option.getD_some, hloop, List.nil_append]
  refine ⟨by rw [hmain], by rw [hmain]; rfl, by rw [hmain]; rfl, ?_⟩
  rintro ⟨c, hc, hcase⟩
  have hentry : ∃ y, googleRateEntry getRate base c = some y := by
    by_cases hcb : c = base
    · exact ⟨(c, 1), by simp [googleRateEntry, hcb]⟩
    · rcases hcase with hcb2 | htr
      · exact absurd hcb2 hcb
      · rcases hr : getRate base c with _ | r
        · rw [hr] at htr
          simp [jsTruthy] at htr
        · rw [hr] at htr
          have hr0 : r ≠ 0 := by
            simpa [jsTruthy] using htr
          exact ⟨(c, r), by simp [googleRateEntry, hcb, hr, hr0]⟩
  obtain ⟨y, hy⟩ := hentry
  have hmem : y ∈ symbols.filterMap (googleRateEntry getRate base) :=
    List.mem_filterMap.mpr ⟨c, hc, hy⟩
  obtain ⟨a, as, hl⟩ := List.exists_cons_of_ne_nil (List.ne_nil_of_mem hmem)
  rw [hmain]
  simp [createExchangeRatesResult, hl]

/-- Witness for C5 at a concrete input: base USD, symbols USD, EUR and GBP,
an oracle that knows GBP but fails on EUR. -/
theorem googleLatestRates_per_symbol_witness :
    (["USD", "EUR", "GBP"] : List String).Nodup
    ∧ (googleLatestRates
        (fun _ c => if c = "GBP" then some (2 : ℚ) else none)
        5 "USD" [] (some ["USD", "EUR", "GBP"])).2 = [("USD", "EUR"), ("USD", "GBP")]
    ∧ (googleLatestRates
        (fun _ c => if c = "GBP" then some (2 : ℚ) else none)
        5 "USD" [] (some ["USD", "EUR", "GBP"])).1.rates = [("USD", 1), ("GBP", 2)]
    ∧ (googleLatestRates
        (fun _ c => if c = "GBP" then some (2 : ℚ) else none)
        5 "USD" [] (some ["USD", "EUR", "GBP"])).1.success = true := by
  have h := googleLatestRates_per_symbol
    (fun _ c => if c = "GBP" then some (2 : ℚ) else none)
    5 "USD" [] ["USD", "EUR", "GBP"] (by decide)
  refine ⟨by decide, ?_, ?_, h.2.2.2 ⟨"USD", by decide, Or.inl rfl⟩⟩
  · rw [h.1]
    rfl
  · rw [h.2.1]
    rfl

/-- Claim C2: `FixerProvider.getConvertRate` implements the cross-rate
algorithm.  When `to` equals the exchange base (and `from ≠ to`), it issues
one rates call for `[from]` and returns `1 / rate(base→from)`, or `undefined`
— without dividing — when that rate is absent or zero.  When neither endpoint
is the base, it issues one batched rates call with symbols `[from, to]` and
returns `rate(base→to) / rate(base→from)` when both legs are present and
truthy, and `undefined` when either leg is missing. -/
theorem fixerGetConvertRate_cross_rate
    (upstream : Option (List String) → FixerFetchOutcome) (now : Nat)
    (base from_ to_ : String) (hft : from_ ≠ to_) :
    (to_ = base →
      ((fixerLatestRates upstream now base (some [from_])).1.rates.lookup from_ = none →
        fixerGetConvertRate upstream now base from_ to_ = (none, [some [from_]]))
      ∧ (∀ r, (fixerLatestRates upstream now base (some [from_])).1.rates.lookup from_ = some r →
          fixerGetConvertRate upstream now base from_ to_ =
            ((if r = 0 then none else some (1 / r)), [some [from_]])))
    ∧ (from_ ≠ base → to_ ≠ base →
      (((fixerLatestRates upstream now base (some [from_, to_])).1.rates.lookup from_ = none
          ∨ (fixerLatestRates upstream now base (some [from_, to_])).1.rates.lookup to_ = none) →
        fixerGetConvertRate upstream now base from_ to_ = (none, [some [from_, to_]]))
      ∧ (∀ fr tr,
          (fixerLatestRates upstream now base (some [from_, to_])).1.rates.lookup from_ = some fr →
          (fixerLatestRates upstream now base (some [from_, to_])).1.rates.lookup to_ = some tr →
          fr ≠ 0 → tr ≠ 0 →
          fixerGetConvertRate upstream now base from_ to_ =
            (some (tr / fr), [some [from_, to_]]))) := by
  constructor
  · intro hb
    have hfb : from_ ≠ base := fun h => hft (h.trans hb.symm)
    constructor
    · intro hnone
      simp only [fixerGetConvertRate, if_neg hft, if_neg hfb, if_pos hb, hnone]
      simp [jsTruthy, fixerLatestRates]
    · intro r hr
      simp only [fixerGetConvertRate, if_neg hft, if_neg hfb, if_pos hb, hr]
      by_cases hr0 : r = 0
      · simp [jsTruthy, hr0, fixerLatestRates]
      · simp [jsTruthy, hr0, fixerLatestRates]
  · intro hfb htb
    constructor
    · intro hmiss
      rcases hmiss with hnone | hnone <;>
        simp only [fixerGetConvertRate, if_neg hft, if_neg hfb, if_neg htb, hnone] <;>
        simp [jsTruthy, fixerLatestRates]
    · intro fr tr hfr htr hfr0 htr0
      simp only [fixerGetConvertRate, if_neg hft, if_neg hfb, if_neg htb, hfr, htr]
      simp [jsTruthy, hfr0, htr0, fixerLatestRates]

/-- Fixture upstream for the C2 witness: the Fixer `/latest` endpoint always
answers successfully with base-relative rates EUR ↦ 2, GBP ↦ 6. -/
def fixerUpstreamFix : Option (List String) → FixerFetchOutcome :=
  fun _ => .ok (some [("EUR", 2), ("GBP", 6)])

/-- Witness for C2 at concrete inputs: with base USD and rates EUR ↦ 2 and
GBP ↦ 6, converting EUR to the base yields 1/2 from one `[EUR]` call, and the
EUR to GBP cross-rate yields 6/2 = 3 from one batched `[EUR, GBP]` call. -/
theorem fixerGetConvertRate_cross_rate_witness :
    ("EUR" : String) ≠ "USD"
    ∧ fixerGetConvertRate fixerUpstreamFix 0 "USD" "EUR" "USD" =
      (some (1 / 2), [some ["EUR"]])
    ∧ fixerGetConvertRate fixerUpstreamFix 0 "USD" "EUR" "GBP" =
      (some 3, [some ["EUR", "GBP"]]) := by
  have h1 := (fixerGetConvertRate_cross_rate fixerUpstreamFix 0 "USD" "EUR" "USD"
    (by decide)).1 rfl |>.2 2 rfl
  have h2 := ((fixerGetConvertRate_cross_rate fixerUpstreamFix 0 "USD" "EUR" "GBP"
    (by decide)).2 (by decide) (by decide)).2 2 6 rfl rfl (by norm_num) (by norm_num)
  refine ⟨by decide, ?_, ?_⟩
  · rwa [if_neg (by norm_num)] at h1
  · rw [h2]
    norm_num

/-! ## Registry lookup lemmas for the service claims -/

/-- Replacing the key-`k` entries does not change lookups of other keys. -/
theorem lookup_map_setKey (m : List (String × ExchangeState)) (k : String)
    (v : ExchangeState) (m' : String) (h : m' ≠ k) :
    (m.map (fun p => if p.1 = k then (k, v) else p)).lookup m' = m.lookup m' := by
  induction m with
  | nil => rfl
  | cons a rest ih =>
    obtain ⟨a1, a2⟩ := a
    by_cases hak : a1 = k
    · subst hak
      have hhead : (if (a1, a2).1 = a1 then (a1, v) else (a1, a2)) = (a1, v) :=
        if_pos rfl
      rw [List.map_cons, hhead]
      simp only [List.lookup_cons, beq_false_of_ne h]
      exact ih
    · simp only [List.map_cons, if_neg hak, List.lookup_cons]
      cases hq : m' == a1
      · exact ih
      · rfl

/-- Appending a key-`k` entry does not change lookups of other keys. -/
theorem lookup_append_single_ne (m : List (String × ExchangeState)) (k : String)
    (v : ExchangeState) (m' : String) (h : m' ≠ k) :
    (m ++ [(k, v)]).lookup m' = m.lookup m' := by
  induction m with
  | nil =>
    simp [List.lookup_cons, beq_false_of_ne h]
  | cons a rest ih =>
    obtain ⟨a1, a2⟩ := a
    simp only [List.cons_append, List.lookup_cons]
    cases hq : m' == a1
    · exact ih
    · rfl

/-- A key absent from every entry looks up to `none`. -/
theorem lookup_eq_none_of_not_any (m : List (String × ExchangeState)) (k : String)
    (h : m.any (fun p => p.1 = k) = false) : m.lookup k = none := by
  induction m with
  | nil => rfl
  | cons a rest ih =>
    obtain ⟨a1, a2⟩ := a
    simp only [List.any_cons, Bool.or_eq_false_iff, decide_eq_false_iff_not] at h
    simp only [List.lookup_cons, beq_false_of_ne (Ne.symm h.1)]
    exact ih h.2

/-- `Map.set` then `Map.get` of the same key returns the stored value. -/
theorem lookup_mapSet_self (m : List (String × ExchangeState)) (k : String)
    (v : ExchangeState) : (mapSet m k v).lookup k = some v := by
  rw [mapSet]
  by_cases hany : m.any (fun p => p.1 = k) = true
  · rw [if_pos hany]
    induction m with
    | nil => simp at hany
    | cons a rest ih =>
      obtain ⟨a1, a2⟩ := a
      by_cases hak : a1 = k
      · subst hak
        simp [List.map_cons, if_pos rfl, List.lookup_cons]
      · simp only [List.any_cons, decide_eq_true_eq, Bool.or_eq_true] at hany
        rcases hany with hh | ht
        · exact absurd hh hak
        · simp only [List.map_cons, if_neg hak, List.lookup_cons,
            beq_false_of_ne (Ne.symm hak)]
          exact ih ht
  · have hany' : m.any (fun p => p.1 = k) = false :=
      Bool.eq_false_iff.mpr hany
    rw [if_neg hany]
    have h0 : m.lookup k = none := lookup_eq_none_of_not_any m k hany'
    induction m with
    | nil => simp [List.lookup_cons]
    | cons a rest ih =>
      obtain ⟨a1, a2⟩ := a
      simp only [List.any_cons, Bool.or_eq_false_iff, decide_eq_false_iff_not] at hany'
      simp only [List.lookup_cons, beq_false_of_ne (Ne.symm hany'.1)] at h0
      simp only [List.cons_append, List.lookup_cons,
        beq_false_of_ne (Ne.symm hany'.1)]
      exact ih (by simp [hany'.1, hany'.2]) (by simp [hany'.2]) h0

/-- `Map.set` of one key does not change lookups of other keys. -/
theorem lookup_mapSet_ne (m : List (String × ExchangeState)) (k : String)
    (v : ExchangeState) (m' : String) (h : m' ≠ k) :
    (mapSet m k v).lookup m' = m.lookup m' := by
  rw [mapSet]
  by_cases hany : m.any (fun p => p.1 = k) = true
  · rw [if_pos hany]
    exact lookup_map_setKey m k v m' h
  · rw [if_neg hany]
    exact lookup_append_single_ne m k v m' h

/-- Claim C6: `use(name)` on an unregistered name fails synchronously with
the configuration error (it never touches any exchange, so no I/O can have
happened); on a registered name it only moves the active pointer, and a
subsequent `convert` delegates to exactly that exchange's implementation. -/
theorem use_switches_active_exchange (s : CurrencyService) (name : String) :
    (s.exchanges.lookup name = none →
      s.use name = .error (.notConfigured name))
    ∧ (∀ ex, s.exchanges.lookup name = some ex →
        s.use name = .ok (⟨s.exchanges, some name⟩, ex)
        ∧ ∀ p, CurrencyService.convert ⟨s.exchanges, some name⟩ p =
            .ok (ex.convertFn ex.base p)) := by
  constructor
  · intro hnone
    simp [CurrencyService.use, hnone]
  · intro ex hex
    refine ⟨by simp [CurrencyService.use, hex], fun p => ?_⟩
    simp [CurrencyService.convert, CurrencyService.getActiveExchange, hex]

/-- Fixture exchange with distinctive conversion results, first flavour. -/
def exX : ExchangeState :=
  { base := "USD"
    convertFn := fun _ _ => createConversionResult 0 0 "" "" (some 1) (some 1) none
    latestFn := fun b _ => createExchangeRatesResult 0 b [] none
    getConvertRateFn := fun _ _ _ => none }

/-- Fixture exchange with distinctive conversion results, second flavour. -/
def exY : ExchangeState :=
  { base := "EUR"
    convertFn := fun _ _ => createConversionResult 0 0 "" "" (some 2) (some 2) none
    latestFn := fun b _ => createExchangeRatesResult 0 b [("EUR", 1)] none
    getConvertRateFn := fun _ _ _ => some 1 }

/-- Witness for C6 on a two-exchange service: an unregistered name throws,
and after `use "y"` a `convert` returns exchange y's distinctive result. -/
theorem use_switches_active_exchange_witness :
    (mkCurrencyService ⟨"x", [("x", .inst exX), ("y", .inst exY)]⟩).exchanges.lookup "zzz"
      = none
    ∧ (mkCurrencyService ⟨"x", [("x", .inst exX), ("y", .inst exY)]⟩).use "zzz"
      = .error (.notConfigured "zzz")
    ∧ (mkCurrencyService ⟨"x", [("x", .inst exX), ("y", .inst exY)]⟩).use "y"
      = .ok (⟨[("x", exX), ("y", exY)], some "y"⟩, exY)
    ∧ CurrencyService.convert ⟨[("x", exX), ("y", exY)], some "y"⟩ ⟨5, "USD", "EUR"⟩
      = .ok (exY.convertFn exY.base ⟨5, "USD", "EUR"⟩) := by
  have h := use_switches_active_exchange
    (mkCurrencyService ⟨"x", [("x", .inst exX), ("y", .inst exY)]⟩) "zzz"
  have h2 := use_switches_active_exchange
    (mkCurrencyService ⟨"x", [("x", .inst exX), ("y", .inst exY)]⟩) "y"
  exact ⟨rfl, h.1 rfl, (h2.2 exY rfl).1, (h2.2 exY rfl).2 ⟨5, "USD", "EUR"⟩⟩

/-- Appending a fresh key to a registry is `mapSet`. -/
theorem mapSet_fresh (m : List (String × ExchangeState)) (k : String)
    (v : ExchangeState) (h : ∀ p ∈ m, p.1 ≠ k) : mapSet m k v = m ++ [(k, v)] := by
  rw [mapSet, if_neg]
  simp only [List.any_eq_true, not_exists, not_and]
  intro p hp
  simpa using h p hp

/-- Helper for C7: with distinct configured names, the registry built by the
constructor is exactly the entry list with each factory invoked. -/
theorem initializeExchanges_loop (entries : List (String × ExchangeEntry))
    (acc : List (String × ExchangeState))
    (hnd : (entries.map Prod.fst).Nodup)
    (hacc : ∀ e ∈ entries, ∀ p ∈ acc, p.1 ≠ e.1) :
    entries.foldl (fun m p => mapSet m p.1 (resolveEntry p.2)) acc =
      acc ++ entries.map (fun e => (e.1, resolveEntry e.2)) := by
  induction entries generalizing acc with
  | nil => simp
  | cons e rest ih =>
    have hend : e.1 ∉ rest.map Prod.fst := (List.nodup_cons.mp hnd).1
    have hfresh : ∀ p ∈ acc, p.1 ≠ e.1 := hacc e (List.mem_cons_self e rest)
    rw [List.foldl_cons, mapSet_fresh acc e.1 (resolveEntry e.2) hfresh,
      ih (acc ++ [(e.1, resolveEntry e.2)]) (List.nodup_cons.mp hnd).2 ?hacc2]
    · simp
    case hacc2 =>
      intro e1 he1 p hp
      rcases List.mem_append.mp hp with hpacc | hpnew
      · exact hacc e1 (List.mem_cons_of_mem _ he1) p hpacc
      · simp only [List.mem_singleton] at hpnew
        subst hpnew
        intro hc
        exact hend (hc ▸ List.mem_map_of_mem Prod.fst he1)

/-- Counterexample to C7 as stated: a configuration whose default names no
configured exchange is accepted — the constructor returns a normal service
with a dangling active pointer instead of failing fast, and the error only
appears later when an operation resolves the active exchange. -/
theorem mkCurrencyService_accepts_dangling_default :
    mkCurrencyService ⟨"missing", [("google", .inst exX)]⟩ =
      { exchanges := [("google", exX)], currentExchange := some "missing" }
    ∧ CurrencyService.convert (mkCurrencyService ⟨"missing", [("google", .inst exX)]⟩)
        ⟨1, "USD", "EUR"⟩ = .error (.notAvailable "missing") :=
  ⟨rfl, rfl⟩

/-- Claim C7 as amended: construction eagerly invokes factories, populates the
registry with every configured entry (distinct names), and sets the configured
default as active — but it does not validate the default name: with a default
absent from the registry, construction still succeeds and the failure surfaces
only when an operation resolves the active exchange. -/
theorem mkCurrencyService_amended (config : CurrencyConfig)
    (hnd : (config.exchanges.map Prod.fst).Nodup) :
    (mkCurrencyService config).exchanges =
      config.exchanges.map (fun e => (e.1, resolveEntry e.2))
    ∧ (mkCurrencyService config).currentExchange = some config.default
    ∧ ((config.exchanges.map (fun e => (e.1, resolveEntry e.2))).lookup config.default
        = none →
      ∀ p, (mkCurrencyService config).convert p =
        .error (.notAvailable config.default)) := by
  have hreg : (mkCurrencyService config).exchanges =
      config.exchanges.map (fun e => (e.1, resolveEntry e.2)) := by
    show initializeExchanges config.exchanges = _
    rw [initializeExchanges]
    rw [initializeExchanges_loop config.exchanges [] hnd
      (fun e _ p hp => absurd hp (List.not_mem_nil p))]
    simp
  refine ⟨hreg, rfl, fun hmiss p => ?_⟩
  simp [CurrencyService.convert, CurrencyService.getActiveExchange,
    show (mkCurrencyService config).currentExchange = some config.default from rfl,
    hreg, hmiss]

/-- Witness for C7 (amended) with a factory entry and a dangling default:
the factory is invoked eagerly, the registry holds its result, the default is
set although unregistered, and `convert` then throws the availability error. -/
theorem mkCurrencyService_amended_witness :
    ((([("google", ExchangeEntry.factory (fun _ => exX))] :
        List (String × ExchangeEntry)).map Prod.fst).Nodup)
    ∧ (mkCurrencyService ⟨"missing", [("google", .factory (fun _ => exX))]⟩).exchanges
      = [("google", exX)]
    ∧ (mkCurrencyService ⟨"missing", [("google", .factory (fun _ => exX))]⟩).currentExchange
      = some "missing"
    ∧ (mkCurrencyService ⟨"missing", [("google", .factory (fun _ => exX))]⟩).convert
        ⟨1, "USD", "EUR"⟩ = .error (.notAvailable "missing") := by
  have h := mkCurrencyService_amended
    ⟨"missing", [("google", .factory (fun _ => exX))]⟩ (by simp)
  exact ⟨by simp, h.1, h.2.1, h.2.2 rfl ⟨1, "USD", "EUR"⟩⟩

/-- Claim C9: `CurrencyService.getExchangeRates` with a (non-empty) `base`
argument mutates the active exchange's `base` through `setBase` before the
fetch — the fetch already runs with the new base — and the mutation persists
in the registry after the call, changing the base every later `convert`,
`getConvertRate` and `latestRates` on that exchange will read, while the
exchange's behaviour fields, every other registry entry and the active
pointer are left unchanged. -/
theorem getExchangeRates_sets_base_permanently (s : CurrencyService)
    (params : ExchangeRatesParams) (n b : String) (ex : ExchangeState)
    (hcur : s.currentExchange = some n)
    (hex : s.exchanges.lookup n = some ex)
    (hb : params.base = some b) (hb0 : b ≠ "") :
    s.getExchangeRates params =
      .ok (ex.latestFn b params, ⟨mapSet s.exchanges n (setBase ex b), s.currentExchange⟩)
    ∧ (mapSet s.exchanges n (setBase ex b)).lookup n = some (setBase ex b)
    ∧ (setBase ex b).base = b
    ∧ (setBase ex b).convertFn = ex.convertFn
    ∧ (setBase ex b).latestFn = ex.latestFn
    ∧ (setBase ex b).getConvertRateFn = ex.getConvertRateFn
    ∧ (∀ m, m ≠ n →
        (mapSet s.exchanges n (setBase ex b)).lookup m = s.exchanges.lookup m)
    ∧ (∀ p, CurrencyService.convert ⟨mapSet s.exchanges n (setBase ex b), s.currentExchange⟩ p
        = .ok (ex.convertFn b p)) := by
  refine ⟨?_, lookup_mapSet_self s.exchanges n (setBase ex b), rfl, rfl, rfl, rfl,
    fun m hm => lookup_mapSet_ne s.exchanges n (setBase ex b) m hm, fun p => ?_⟩
  · simp only [CurrencyService.getExchangeRates, hcur, hex, hb, if_neg hb0]
    rfl
  · simp [CurrencyService.convert, CurrencyService.getActiveExchange, hcur,
      lookup_mapSet_self s.exchanges n (setBase ex b)]
    rfl

/-- Witness for C9: on a two-exchange service with active exchange x, a rates
request with base GBP rebases x permanently, leaves y untouched, and a later
`convert` runs against the new base. -/
theorem getExchangeRates_sets_base_permanently_witness :
    (mkCurrencyService ⟨"x", [("x", .inst exX), ("y", .inst exY)]⟩).currentExchange
      = some "x"
    ∧ (mkCurrencyService ⟨"x", [("x", .inst exX), ("y", .inst exY)]⟩).getExchangeRates
        ⟨some "GBP", none⟩
      = .ok (exX.latestFn "GBP" ⟨some "GBP", none⟩,
          ⟨[("x", setBase exX "GBP"), ("y", exY)], some "x"⟩)
    ∧ (setBase exX "GBP").base = "GBP"
    ∧ ([("x", setBase exX "GBP"), ("y", exY)] :
        List (String × ExchangeState)).lookup "y" = some exY
    ∧ CurrencyService.convert ⟨[("x", setBase exX "GBP"), ("y", exY)], some "x"⟩
        ⟨5, "USD", "EUR"⟩ = .ok (exX.convertFn "GBP" ⟨5, "USD", "EUR"⟩) := by
  have h := getExchangeRates_sets_base_permanently
    (mkCurrencyService ⟨"x", [("x", .inst exX), ("y", .inst exY)]⟩)
    ⟨some "GBP", none⟩ "x" "GBP" exX rfl rfl rfl (by decide)
  refine ⟨rfl, ?_, h.2.2.1, ?_, ?_⟩
  · exact h.1
  · have := h.2.2.2.2.2.2.1 "y" (by decide)
    exact this
  · exact h.2.2.2.2.2.2.2 ⟨5, "USD", "EUR"⟩

/-- Claim C4 (refuted — the code contradicts the documented pattern ladder):
on HTML where the second candidate pattern matches and captures the positive
number 2 in its group 1, the extraction returns `undefined`, because the loop
tests `match[2]` for every pattern while patterns 2 to 4 have a single capture
group — so their matches can never yield a rate and only pattern 1 can ever
win.  The extraction the specification describes (read each pattern's numeric
capture) returns the rate 2 on the same input. -/
theorem parseRateFromHtml_reads_wrong_group :
    (jsMatch (googlePattern2 "EUR" "GBP") "EUR - GBP 2").map
      (fun caps => caps.lookup 1) = some (some "2")
    ∧ (jsMatch (googlePattern2 "EUR" "GBP") "EUR - GBP 2").map
      (fun caps => caps.lookup 2) = some none
    ∧ parseFloatQ (stripCommas "2") = some 2
    ∧ parseRateFromHtml "EUR - GBP 2" "EUR" "GBP" = none
    ∧ parseRateFromHtmlSpec "EUR - GBP 2" "EUR" "GBP" = some 2 :=
  ⟨by decide, by decide, by decide, by decide, by decide⟩

end CurrencyX
